import Mathlib

/-!
Shallow embedding of the Typer runtime type-validation library
(src/Typer.ts, version 2.4.1 — the newer of the two engine snapshots in the
repository, which the specification designates as authoritative).

JavaScript runtime values are modelled by the inductive type `JSValue`.
Numbers are modelled by integers (no claim exercises NaN or fractional
values: the engine only inspects `typeof`, truthiness and display of
numbers).  Host objects without internal structure relevant to the engine
(RegExp, Map, Set, ArrayBuffer, DataView, typed arrays, DOM elements,
symbols, functions) are modelled as atoms.  A `Date` carries only the
validity bit tested by `isNaN(getTime())`.  Plain objects are association
lists in insertion order with distinct keys (as produced by JS object
literals); property access does not model the prototype chain, which the
engine never relies on for the schemas and values under study.

A validator ("type checker") is a function from a value to either the
returned value or a thrown error, modelled by `Except String JSValue`
(`.error` = a thrown exception carrying its message).
-/

inductive JSValue where
  | str (s : String)
  | num (n : Int)
  | bool (b : Bool)
  | bigint (n : Int)
  | null
  | undef
  | sym
  | fn
  | arr (items : List JSValue)
  | obj (fields : List (String × JSValue))
  | date (valid : Bool)
  | regexp
  | map
  | set
  | arrayBuffer
  | dataView
  | typedArray
  | domElement

/-- JS `typeof` operator on the modelled values. -/
def typeOf : JSValue → String
  | .str _ => "string"
  | .num _ => "number"
  | .bool _ => "boolean"
  | .bigint _ => "bigint"
  | .null => "object"
  | .undef => "undefined"
  | .sym => "symbol"
  | .fn => "function"
  | .arr _ => "object"
  | .obj _ => "object"
  | .date _ => "object"
  | .regexp => "object"
  | .map => "object"
  | .set => "object"
  | .arrayBuffer => "object"
  | .dataView => "object"
  | .typedArray => "object"
  | .domElement => "object"

/-- JS `Array.isArray`. -/
def jsIsArray : JSValue → Bool
  | .arr _ => true
  | _ => false

/-- `v === undefined`. -/
def jsIsUndefined : JSValue → Bool
  | .undef => true
  | _ => false

/-- `v === null`. -/
def jsIsNull : JSValue → Bool
  | .null => true
  | _ => false

/-- `typeof v === "string"` as a direct discriminator. -/
def jsIsString : JSValue → Bool
  | .str _ => true
  | _ => false

/-- The element list of an array value (used after an `Array.isArray`
guard). -/
def jsArrayItems : JSValue → List JSValue
  | .arr items => items
  | _ => []

/-- JS truthiness (`!v` is `!jsTruthy v`).  Falsy values: `null`,
`undefined`, `false`, `0`, `0n`, `""` (NaN is not modelled). -/
def jsTruthy : JSValue → Bool
  | .null => false
  | .undef => false
  | .bool b => b
  | .num n => n != 0
  | .bigint n => n != 0
  | .str s => s != ""
  | _ => true

mutual
/-- JS string coercion as used by template literals (`${p}`) and property
keys.  Host-dependent renderings (dates, regexps, typed arrays) and the
exotic cases (symbols throw in real template literals; `null`/`undefined`
render empty inside arrays) are fixed to simple representatives: no claim
depends on their exact text. -/
def jsDisplay : JSValue → String
  | .str s => s
  | .num n => toString n
  | .bool b => if b then "true" else "false"
  | .bigint n => toString n
  | .null => "null"
  | .undef => "undefined"
  | .sym => "Symbol()"
  | .fn => "function () {}"
  | .arr items => String.intercalate "," (jsDisplayList items)
  | .obj _ => "[object Object]"
  | .date valid => if valid then "[Date]" else "Invalid Date"
  | .regexp => "[RegExp]"
  | .map => "[object Map]"
  | .set => "[object Set]"
  | .arrayBuffer => "[object ArrayBuffer]"
  | .dataView => "[object DataView]"
  | .typedArray => "[TypedArray]"
  | .domElement => "[object HTMLElement]"
def jsDisplayList : List JSValue → List String
  | [] => []
  | v :: vs => jsDisplay v :: jsDisplayList vs
end

/-- `getType` (private helper of the class): refined kind used in error
messages. -/
def getType (value : JSValue) : String :=
  match value with
  | .null => "null"
  | .arr _ => "array"
  | .date _ => "date"
  | .regexp => "regexp"
  | .map => "map"
  | .set => "set"
  | v => typeOf v

/-- JS `String.prototype.toLowerCase` (ASCII-faithful). -/
def jsToLower (s : String) : String := ⟨s.data.map Char.toLower⟩

/-- Whitespace recognised by JS `String.prototype.trim` (common subset). -/
def isJsWhitespace (c : Char) : Bool :=
  c = ' ' || c = '\t' || c = '\n' || c = '\r' || c = '\x0b' || c = '\x0c'

def jsTrimChars (l : List Char) : List Char :=
  ((l.dropWhile isJsWhitespace).reverse.dropWhile isJsWhitespace).reverse

/-- JS `String.prototype.trim`. -/
def jsTrim (s : String) : String := ⟨jsTrimChars s.data⟩

/-- Splitting a character list at every occurrence of a separator
character; always returns at least one (possibly empty) chunk, like JS
`String.prototype.split` with a one-character separator. -/
def splitChars (c : Char) : List Char → List (List Char)
  | [] => [[]]
  | x :: xs =>
    match splitChars c xs with
    | [] => [[]]
    | h :: t => if x = c then [] :: h :: t else (x :: h) :: t

/-- JS `String.prototype.split` with a one-character separator. -/
def jsSplit (c : Char) (s : String) : List String :=
  (splitChars c s.data).map (fun l => ⟨l⟩)

/-- JS `s.endsWith("?")`. -/
def endsWithQuestion (s : String) : Bool := s.data.getLast? = some '?'

/-- JS `s.slice(0, -1)`. -/
def sliceDropLast (s : String) : String := ⟨s.data.dropLast⟩

/-- `name.toLowerCase().trim()` — the normalization applied to type names
by the registry and the matchers. -/
def normalizeTypeName (s : String) : String := jsTrim (jsToLower s)

instance {e a : Type} [DecidableEq e] [DecidableEq a] : DecidableEq (Except e a) :=
  fun x y =>
    match x, y with
    | .ok u, .ok v =>
      if h : u = v then .isTrue (by rw [h]) else .isFalse (by simp [h])
    | .error u, .error v =>
      if h : u = v then .isTrue (by rw [h]) else .isFalse (by simp [h])
    | .ok _, .error _ => .isFalse (by simp)
    | .error _, .ok _ => .isFalse (by simp)

/-- A registry entry: a validator in the sense of the Custom Validator
Contract. -/
abbrev Validator := JSValue → Except String JSValue

/-- The `typesMap` field: a JS object mapping normalized names to
validators, modelled as an association list in insertion order with
distinct keys. -/
abbrev TypesMap := List (String × Validator)

/-- Property read `typesMap[key]`. -/
def lookupType : TypesMap → String → Option Validator
  | [], _ => none
  | (k, f) :: rest, key => if k = key then some f else lookupType rest key

/-- Property write `typesMap[key] = f` (replaces in place or appends). -/
def setKey : TypesMap → String → Validator → TypesMap
  | [], key, f => [(key, f)]
  | (k, g) :: rest, key, f =>
    if k = key then (key, f) :: rest else (k, g) :: setKey rest key f

/-- Property delete `delete typesMap[key]`. -/
def removeKey : TypesMap → String → TypesMap
  | [], _ => []
  | (k, g) :: rest, key => if k = key then rest else (k, g) :: removeKey rest key

/-- `tArray`. -/
def tArray (p : JSValue) : Except String JSValue :=
  if !jsIsArray p then
    .error (jsDisplay p ++ " must be an array, is " ++ typeOf p)
  else .ok p

/-- `tArrayBuffer`. -/
def tArrayBuffer (p : JSValue) : Except String JSValue :=
  match p with
  | .arrayBuffer => .ok p
  | _ => .error (jsDisplay p ++ " must be an ArrayBuffer.")

/-- `tBigint`. -/
def tBigint (p : JSValue) : Except String JSValue :=
  if typeOf p ≠ "bigint" then
    .error (jsDisplay p ++ " must be a bigint, is " ++ typeOf p)
  else .ok p

/-- `tBoolean`. -/
def tBoolean (p : JSValue) : Except String JSValue :=
  if typeOf p ≠ "boolean" then
    .error (jsDisplay p ++ " must be a boolean, is " ++ typeOf p)
  else .ok p

/-- `tDataView` (v2.4.1: rejects exactly the non-DataView values). -/
def tDataView (p : JSValue) : Except String JSValue :=
  match p with
  | .dataView => .ok p
  | _ => .error (jsDisplay p ++ " must be a DataView.")

/-- `tDate`: an `instanceof Date` whose `getTime()` is not NaN. -/
def tDate (p : JSValue) : Except String JSValue :=
  match p with
  | .date true => .ok p
  | _ => .error (jsDisplay p ++ " must be a valid Date.")

/-- `tDomElement`. -/
def tDomElement (p : JSValue) : Except String JSValue :=
  match p with
  | .domElement => .ok p
  | _ => .error (jsDisplay p ++ " must be a DOM element, is " ++ typeOf p)

/-- `tFunction`. -/
def tFunction (p : JSValue) : Except String JSValue :=
  if typeOf p ≠ "function" then
    .error (jsDisplay p ++ " must be a function, is " ++ typeOf p)
  else .ok p

/-- Acceptance of a string by the host `JSON.parse`, abstracted to a check
of the first significant character.  The source delegates to the host JSON
parser; no claim under study exercises the `json` validator, so only a
fixed total function is required here. -/
def jsonParseable (s : String) : Bool :=
  match (jsTrim s).data with
  | [] => false
  | c :: _ =>
    c.isDigit || c = '-' || c = '"' || c = '[' || c = '{' ||
    c = 't' || c = 'f' || c = 'n'

/-- `tJSON`: `isType('string', p)` then `JSON.parse`.  The source resolves
the name `'string'` through the live registry; with the built-in registry
that resolution yields `tString`, which is inlined here together with the
error `isType` would throw for a non-string. -/
def tJSON (p : JSValue) : Except String JSValue :=
  match p with
  | .str s =>
    if jsonParseable s then .ok p
    else .error (jsDisplay p ++ " must be a valid JSON string.")
  | _ =>
    .error ("None of the types matched for " ++ jsDisplay p ++ ": " ++
      jsDisplay p ++ " must be a string, is " ++ typeOf p)

/-- `tMap`. -/
def tMap (p : JSValue) : Except String JSValue :=
  match p with
  | .map => .ok p
  | _ => .error (jsDisplay p ++ " must be a Map.")

/-- `tNumber`. -/
def tNumber (p : JSValue) : Except String JSValue :=
  if typeOf p ≠ "number" then
    .error (jsDisplay p ++ " must be a number, is " ++ typeOf p)
  else .ok p

/-- `tNull`. -/
def tNull (p : JSValue) : Except String JSValue :=
  match p with
  | .null => .ok p
  | _ => .error (jsDisplay p ++ " must be null.")

/-- `tObject`: `typeof p === "object"` and not an array (so `null` passes). -/
def tObject (p : JSValue) : Except String JSValue :=
  if typeOf p ≠ "object" || jsIsArray p then
    .error (jsDisplay p ++ " must be a non-array object, is " ++
      (if jsIsArray p then "array" else typeOf p))
  else .ok p

/-- `tRegex`. -/
def tRegex (p : JSValue) : Except String JSValue :=
  match p with
  | .regexp => .ok p
  | _ => .error (jsDisplay p ++ " must be a RegExp.")

/-- `tSet`. -/
def tSet (p : JSValue) : Except String JSValue :=
  match p with
  | .set => .ok p
  | _ => .error (jsDisplay p ++ " must be a Set.")

/-- `tString`. -/
def tString (p : JSValue) : Except String JSValue :=
  if typeOf p ≠ "string" then
    .error (jsDisplay p ++ " must be a string, is " ++ typeOf p)
  else .ok p

/-- `tSymbol`. -/
def tSymbol (p : JSValue) : Except String JSValue :=
  if typeOf p ≠ "symbol" then
    .error (jsDisplay p ++ " must be a symbol, is " ++ typeOf p)
  else .ok p

/-- `tTypedArray`: an `ArrayBuffer.isView` that is not a DataView. -/
def tTypedArray (p : JSValue) : Except String JSValue :=
  match p with
  | .typedArray => .ok p
  | _ => .error (jsDisplay p ++ " must be a TypedArray.")

/-- `tUndefined`. -/
def tUndefined (p : JSValue) : Except String JSValue :=
  if typeOf p ≠ "undefined" then
    .error (jsDisplay p ++ " must be undefined, is " ++ typeOf p)
  else .ok p

/-- The `typesMap` built in the constructor, in source order. -/
def builtinTypesMap : TypesMap :=
  [("a", tArray), ("arr", tArray), ("array", tArray),
   ("ab", tArrayBuffer), ("arr_buff", tArrayBuffer), ("array_buffer", tArrayBuffer),
   ("ta", tTypedArray), ("typ_arr", tTypedArray), ("typed_array", tTypedArray),
   ("bi", tBigint), ("bint", tBigint), ("bigint", tBigint),
   ("b", tBoolean), ("bool", tBoolean), ("boolean", tBoolean),
   ("dt", tDate), ("date", tDate),
   ("dv", tDataView), ("dt_v", tDataView), ("data_view", tDataView),
   ("dom", tDomElement), ("domel", tDomElement), ("domelement", tDomElement),
   ("f", tFunction), ("funct", tFunction), ("function", tFunction),
   ("j", tJSON), ("json", tJSON),
   ("map", tMap),
   ("n", tNumber), ("num", tNumber), ("number", tNumber),
   ("null", tNull),
   ("o", tObject), ("obj", tObject), ("object", tObject),
   ("reg", tRegex), ("regex", tRegex), ("regexp", tRegex),
   ("set", tSet),
   ("s", tString), ("str", tString), ("string", tString),
   ("sym", tSymbol), ("symbol", tSymbol),
   ("u", tUndefined), ("undef", tUndefined), ("undefined", tUndefined),
   ("void", tUndefined)]

/-- `registerType(name, validator, override)`: the new registry on success,
or the thrown error. -/
def registerType (tm : TypesMap) (name : String) (validator : Validator)
    (override : Bool) : Except String TypesMap :=
  let typeKey := normalizeTypeName name
  if (lookupType tm typeKey).isSome && !override then
    .error ("Type \"" ++ name ++ "\" is already registered.")
  else .ok (setKey tm typeKey validator)

/-- `unregisterType(name)`. -/
def unregisterType (tm : TypesMap) (name : String) : Except String TypesMap :=
  let typeKey := normalizeTypeName name
  if (lookupType tm typeKey).isNone then
    .error ("Type \"" ++ name ++ "\" is not registered.")
  else .ok (removeKey tm typeKey)

/-- `listTypes()`. -/
def listTypes (tm : TypesMap) : List String := tm.map Prod.fst

/-- `importTypes(json)` after the host `JSON.parse` step (factored out:
the argument is the parsed payload).  Returns the list of console warnings;
the property read `typesMap[type]` uses the raw, string-coerced element,
with no normalization. -/
def importTypesParsed (tm : TypesMap) (types : JSValue) :
    Except String (List String) :=
  match types with
  | .arr ts =>
    .ok ((ts.filter (fun t => (lookupType tm (jsDisplay t)).isNone)).map
      (fun t => "[Typer] Unknown type in import: " ++ jsDisplay t))
  | _ => .error "Invalid type list"

/-- The checker-resolution phase of `isType`: all names are resolved
before any is tried, throwing on the first unknown name. -/
def resolveCheckers (tm : TypesMap) (types : List String) :
    Except String (List Validator) :=
  types.mapM (fun t =>
    match lookupType tm (normalizeTypeName t) with
    | some c => .ok c
    | none => .error ("Unknown type: " ++ t))

/-- The trial loop of `isType`: try each checker in order, returning the
original argument `p` on the first success; collect each rejection message
and throw the aggregate when every checker rejects. -/
def tryCheckers (p : JSValue) : List Validator → List String → Except String JSValue
  | [], errors =>
    .error ("None of the types matched for " ++ jsDisplay p ++ ": " ++
      String.intercalate ", " errors)
  | c :: rest, errors =>
    match c p with
    | .ok _ => .ok p
    | .error m => tryCheckers p rest (errors ++ [m])

/-- `isType(types, p)` with an array argument (a single string is wrapped
into a one-element array by the source before this point). -/
def isTypeArr (tm : TypesMap) (types : List String) (p : JSValue) :
    Except String JSValue := do
  let typeCheckers ← resolveCheckers tm types
  tryCheckers p typeCheckers []

/-- `isType(type, p)` with a single string argument. -/
def isType (tm : TypesMap) (t : String) (p : JSValue) : Except String JSValue :=
  isTypeArr tm [t] p

/-- `is(value, types)` with an array argument: boolean matcher, throwing
only for an unknown name reached in trial order. -/
def jsIsList (tm : TypesMap) (value : JSValue) : List String → Except String Bool
  | [] => .ok false
  | t :: rest =>
    match lookupType tm (normalizeTypeName t) with
    | none => .error ("Unknown type: " ++ t)
    | some checker =>
      match checker value with
      | .ok _ => .ok true
      | .error _ => jsIsList tm value rest

/-- `is(value, type)` with a single string argument. -/
def jsIs (tm : TypesMap) (value : JSValue) (t : String) : Except String Bool :=
  jsIsList tm value [t]

/-- Own enumerable keys, `Object.keys(v)`, in insertion order (empty for
non-plain objects such as Date or Map instances). -/
def jsKeys : JSValue → List String
  | .obj fields => fields.map Prod.fst
  | _ => []

/-- Property read `v[key]` (own properties of plain objects only; an
absent key reads as `undefined`). -/
def jsGet (v : JSValue) (key : String) : JSValue :=
  match v with
  | .obj fields => jsGetFields fields key
  | _ => .undef
where
  jsGetFields : List (String × JSValue) → String → JSValue
  | [], _ => .undef
  | (k, x) :: rest, key => if k = key then x else jsGetFields rest key

/-- `Object.prototype.hasOwnProperty.call(v, key)`. -/
def jsHasOwn (v : JSValue) (key : String) : Bool :=
  match v with
  | .obj fields => (fields.map Prod.fst).contains key
  | _ => false

/-- The string content of a string value (used after a
`typeof === "string"` guard). -/
def jsStrContent : JSValue → String
  | .str s => s
  | _ => ""

/-- The `? :` step stripping the optional marker:
`isOptional && typeof expected === "string" ? expected.slice(0, -1) : expected`. -/
def stripOptional (expected : JSValue) : JSValue :=
  match expected with
  | .str s => .str (sliceDropLast s)
  | e => e

/-- The result record of `checkStructure`. -/
structure StructureValidationReturn where
  isValid : Bool
  errors : List String
deriving DecidableEq, Repr

/-- A measure for the mutual recursion of the schema engine: the size of
the schema-side argument. -/
def jsSize : JSValue → Nat
  | .arr items => 1 + jsSizeList items
  | .obj fields => 1 + jsSizeFields fields
  | _ => 1
where
  jsSizeList : List JSValue → Nat
  | [] => 1
  | v :: vs => 1 + jsSize v + jsSizeList vs
  jsSizeFields : List (String × JSValue) → Nat
  | [] => 1
  | (_, v) :: fs => 1 + jsSize v + jsSizeFields fs

theorem jsSize_pos (v : JSValue) : 0 < jsSize v := by
  cases v <;> simp [jsSize]

theorem jsSize_stripOptional (e : JSValue) : jsSize (stripOptional e) = jsSize e := by
  cases e <;> simp [stripOptional, jsSize]

theorem jsSize_if_strip (c : Prop) [Decidable c] (e : JSValue) :
    jsSize (if c then stripOptional e else e) = jsSize e := by
  split <;> simp [jsSize_stripOptional]

mutual

/-- `validateSchemaValue(expected, value, fullPath, strictMode, errors)`:
the private dispatcher of the schema engine.  The JS method mutates a
shared `errors` array; here it returns the list of errors it appends.
An `.error` result models an exception escaping the method (the body
catches every potentially-throwing call except the recursion into
`checkStructure`). -/
def validateSchemaValue (tm : TypesMap) (expected value : JSValue)
    (fullPath : String) (strictMode : Bool) : Except String (List String) :=
  match expected with
  | .str e =>
    if jsTrim e = "" then
      pure ["Empty type definition at \"" ++ fullPath ++ "\""]
    else
      let types := ((jsSplit '|' e).map jsTrim).filter (fun t => t ≠ "")
      if types = [] then
        pure ["Invalid type definition \"" ++ e ++ "\" at \"" ++ fullPath ++ "\""]
      else
        let validTypes := types.filter (fun type =>
          match jsIs tm value type with
          | .ok b => b
          | .error _ => false)
        if validTypes = [] then
          let expectedTypes :=
            if types.length = 1 then types.headD ""
            else "one of [" ++ String.intercalate ", " types ++ "]"
          pure ["Expected \"" ++ fullPath ++ "\" to be " ++ expectedTypes ++
            ", got " ++ getType value]
        else pure []
  | .arr l =>
    match l with
    | [] => pure ["Empty array schema definition at \"" ++ fullPath ++ "\""]
    | _ :: _ :: _ =>
      pure ["Array schema must have exactly one element type definition at \"" ++
        fullPath ++ "\""]
    | [elemE] =>
      if !jsIsArray value then
        pure ["Expected \"" ++ fullPath ++ "\" to be an array, got " ++ getType value]
      else
        match elemE with
        | .str es => checkItems tm (.str es) (jsArrayItems value) 0 fullPath strictMode
        | _ => pure ["Array element type must be a string at \"" ++ fullPath ++ "\""]
  | e =>
    if typeOf e == "object" && !jsIsNull e && !jsIsArray e then
      if typeOf value != "object" || jsIsNull value || jsIsArray value then
        pure ["Expected \"" ++ fullPath ++ "\" to be an object, got " ++ getType value]
      else do
        let nested ← checkStructure tm e value fullPath strictMode
        pure nested.errors
    else
      let expectedType := if jsIsNull e then "null" else typeOf e
      pure ["Invalid schema definition at \"" ++ fullPath ++ "\": expected string, array, or object, got " ++
        expectedType]
termination_by (3 * jsSize expected + 2, 0)
decreasing_by
  all_goals apply Prod.Lex.left
  all_goals first
  | omega
  | (simp [jsSize, jsSize.jsSizeList]; try omega)

/-- The `value.forEach((item, i) => ...)` loop of the array branch: each
element is validated against the element type-expression at
`fullPath[i]`, any exception being caught and recorded. -/
def checkItems (tm : TypesMap) (elemE : JSValue) (items : List JSValue)
    (i : Nat) (fullPath : String) (strictMode : Bool) :
    Except String (List String) :=
  match items with
  | [] => pure []
  | item :: rest =>
    let itemPath := fullPath ++ "[" ++ toString i ++ "]"
    let itemErrs :=
      match validateSchemaValue tm elemE item itemPath strictMode with
      | .ok es => es
      | .error m => ["Array element validation failed at \"" ++ itemPath ++ "\": " ++ m]
    do
      let restErrs ← checkItems tm elemE rest (i + 1) fullPath strictMode
      pure (itemErrs ++ restErrs)
termination_by (3 * jsSize elemE + 3, items.length)
decreasing_by
  all_goals first
  | (apply Prod.Lex.left; omega)
  | (apply Prod.Lex.right; simp only [List.length_cons]; omega)

/-- The `for (const key of Object.keys(schema))` loop of `checkStructure`:
per-field optional-marker parsing, missing-key handling, and the guarded
call into `validateSchemaValue` (whose exceptions are caught and recorded
at the field's path). -/
def checkFields (tm : TypesMap) (fields : List (String × JSValue))
    (obj : JSValue) (path : String) (strictMode : Bool) :
    Except String (List String) :=
  match fields with
  | [] => pure []
  | (key, expected) :: rest =>
    let value := jsGet obj key
    let fullPath := if path = "" then key else path ++ "." ++ key
    let isOptional := jsIsString expected && endsWithQuestion (jsStrContent expected)
    let baseExpected := if isOptional then stripOptional expected else expected
    let fieldErrs : List String :=
      if jsIsUndefined value then
        if isOptional then [] else ["Missing required key \"" ++ fullPath ++ "\""]
      else if jsIsNull value && isOptional then []
      else
        match validateSchemaValue tm baseExpected value fullPath strictMode with
        | .ok es => es
        | .error m => ["Validation error at \"" ++ fullPath ++ "\": " ++ m]
    do
      let restErrs ← checkFields tm rest obj path strictMode
      pure (fieldErrs ++ restErrs)
termination_by (3 * jsSize.jsSizeFields fields + 1, 0)
decreasing_by
  all_goals simp_wf
  all_goals apply Prod.Lex.left
  all_goals simp [jsSize.jsSizeFields, jsSize_if_strip]
  all_goals omega

/-- `checkStructure(schema, obj, path, strictMode)`. -/
def checkStructure (tm : TypesMap) (schema obj : JSValue) (path : String)
    (strictMode : Bool) : Except String StructureValidationReturn :=
  if !jsTruthy schema || typeOf schema != "object" || jsIsArray schema then
    pure ⟨false, ["Invalid schema: must be a non-null object"]⟩
  else if !jsTruthy obj || typeOf obj != "object" || jsIsArray obj then
    pure ⟨false, ["Invalid object: must be a non-null object, got " ++ getType obj]⟩
  else do
    let fieldErrors ← match schema with
      | .obj fs => checkFields tm fs obj path strictMode
      | _ => pure []
    let errors := fieldErrors ++
      (if strictMode then
        ((jsKeys obj).filter (fun k => !jsHasOwn schema k)).map (fun key =>
          "Unexpected key \"" ++ (if path = "" then key else path ++ "." ++ key) ++
          "\" in strict mode")
      else [])
    pure ⟨errors.isEmpty, errors⟩
termination_by (3 * jsSize schema, 0)
decreasing_by
  all_goals apply Prod.Lex.left
  all_goals simp [jsSize]
  all_goals omega

end

/-- The per-level "unexpected key" errors of strict mode: one error per
key of the value absent from the schema, tagged with its full path, in the
value's key order. -/
def extraKeyErrors (sf vf : List (String × JSValue)) (path : String) : List String :=
  ((vf.map Prod.fst).filter (fun k => !(sf.map Prod.fst).contains k)).map (fun key =>
    "Unexpected key \"" ++ (if path = "" then key else path ++ "." ++ key) ++
    "\" in strict mode")

/-- Two call outcomes agree: both return the same value, or both throw
(the thrown messages may spell the caller-supplied name differently). -/
def outcomeEquiv {α : Type} (x y : Except String α) : Prop :=
  (∃ a, x = .ok a ∧ y = .ok a) ∨ (∃ m m2, x = .error m ∧ y = .error m2)

/-- A custom validator returning a value different from its input. -/
def wrapValidator : Validator := fun _ => .ok (.str "TRANSFORMED")

/-- A custom validator accepting every value unchanged. -/
def idValidator : Validator := fun v => .ok v

/-- A custom validator that throws on every value. -/
def boomValidator : Validator := fun _ => .error "boom"

theorem stringMk_data (s : String) : (⟨s.data⟩ : String) = s := rfl

theorem splitChars_ne_nil (c : Char) (l : List Char) : splitChars c l ≠ [] := by
  induction l with
  | nil => simp [splitChars]
  | cons x xs ih =>
    rcases h : splitChars c xs with _ | ⟨hd, tl⟩
    · exact absurd h ih
    · simp only [splitChars, h]
      split <;> simp

theorem splitChars_sepFree (c : Char) (l : List Char) (h : c ∉ l) :
    splitChars c l = [l] := by
  induction l with
  | nil => rfl
  | cons x xs ih =>
    simp only [List.mem_cons, not_or] at h
    have hxc : x ≠ c := fun hh => h.1 hh.symm
    simp only [splitChars, ih h.2, if_neg hxc]

theorem splitChars_append (c : Char) (a b : List Char) (ha : c ∉ a) :
    splitChars c (a ++ c :: b) = a :: splitChars c b := by
  induction a with
  | nil =>
    rcases h : splitChars c b with _ | ⟨hd, tl⟩
    · exact absurd h (splitChars_ne_nil c b)
    · simp [splitChars, h]
  | cons x xs ih =>
    simp only [List.mem_cons, not_or] at ha
    have hxc : x ≠ c := fun hh => ha.1 hh.symm
    simp only [List.cons_append, splitChars, List.append_eq]
    rw [ih ha.2]
    simp [hxc]

theorem jsSplit_sepFree (c : Char) (s : String) (h : c ∉ s.data) :
    jsSplit c s = [s] := by
  simp [jsSplit, splitChars_sepFree c s.data h, stringMk_data]

theorem mem_dropWhile_of_mem (p : Char → Bool) (l : List Char) (x : Char)
    (hx : x ∈ l) (hp : p x = false) : x ∈ l.dropWhile p := by
  induction l with
  | nil => cases hx
  | cons y ys ih =>
    by_cases hy : p y = true
    · rw [List.dropWhile_cons_of_pos hy]
      rcases List.mem_cons.mp hx with rfl | hmem
      · rw [hy] at hp; cases hp
      · exact ih hmem
    · rw [List.dropWhile_cons_of_neg hy]
      exact hx

theorem mem_jsTrimChars_of_mem (l : List Char) (x : Char) (hx : x ∈ l)
    (hw : isJsWhitespace x = false) : x ∈ jsTrimChars l := by
  unfold jsTrimChars
  apply List.mem_reverse.mpr
  apply mem_dropWhile_of_mem _ _ _ _ hw
  apply List.mem_reverse.mpr
  exact mem_dropWhile_of_mem _ _ _ hx hw

theorem jsTrim_ne_empty_of_mem (s : String) (x : Char) (hx : x ∈ s.data)
    (hw : isJsWhitespace x = false) : jsTrim s ≠ "" := by
  intro h
  have hdata : jsTrimChars s.data = [] := congrArg String.data h
  have hmem := mem_jsTrimChars_of_mem s.data x hx hw
  rw [hdata] at hmem
  cases hmem

theorem jsSplit_two (T1 T2 : String) (h1 : '|' ∉ T1.data) (h2 : '|' ∉ T2.data) :
    jsSplit '|' (T1 ++ "|" ++ T2) = [T1, T2] := by
  have hdata : (T1 ++ "|" ++ T2).data = T1.data ++ '|' :: T2.data := by
    rw [String.data_append, String.data_append,
      show ("|" : String).data = ['|'] from by decide]
    simp
  unfold jsSplit
  rw [hdata, splitChars_append '|' T1.data T2.data h1,
    splitChars_sepFree '|' T2.data h2]
  simp [stringMk_data]

theorem checkFields_isOk (tm : TypesMap) (fields : List (String × JSValue))
    (obj : JSValue) (path : String) (strict : Bool) :
    ∃ es, checkFields tm fields obj path strict = Except.ok es := by
  induction fields with
  | nil =>
    refine ⟨[], ?_⟩
    rw [checkFields]
    rfl
  | cons kv rest ih =>
    obtain ⟨k, e⟩ := kv
    obtain ⟨es, hes⟩ := ih
    exact ⟨_, by rw [checkFields, hes]; rfl⟩

theorem checkStructure_isOk (tm : TypesMap) (schema obj : JSValue)
    (path : String) (strict : Bool) :
    ∃ r, checkStructure tm schema obj path strict = Except.ok r ∧
      r.isValid = r.errors.isEmpty := by
  rw [checkStructure]
  split
  · exact ⟨_, rfl, rfl⟩
  split
  · exact ⟨_, rfl, rfl⟩
  cases schema with
  | obj fs =>
    obtain ⟨es, hes⟩ := checkFields_isOk tm fs obj path strict
    dsimp only
    rw [hes]
    exact ⟨_, rfl, rfl⟩
  | str s => exact ⟨_, rfl, rfl⟩
  | num n => exact ⟨_, rfl, rfl⟩
  | bool b => exact ⟨_, rfl, rfl⟩
  | bigint n => exact ⟨_, rfl, rfl⟩
  | null => exact ⟨_, rfl, rfl⟩
  | undef => exact ⟨_, rfl, rfl⟩
  | sym => exact ⟨_, rfl, rfl⟩
  | fn => exact ⟨_, rfl, rfl⟩
  | arr items => exact ⟨_, rfl, rfl⟩
  | date valid => exact ⟨_, rfl, rfl⟩
  | regexp => exact ⟨_, rfl, rfl⟩
  | map => exact ⟨_, rfl, rfl⟩
  | set => exact ⟨_, rfl, rfl⟩
  | arrayBuffer => exact ⟨_, rfl, rfl⟩
  | dataView => exact ⟨_, rfl, rfl⟩
  | typedArray => exact ⟨_, rfl, rfl⟩
  | domElement => exact ⟨_, rfl, rfl⟩

theorem jsIs_single (tm : TypesMap) (v : JSValue) (t : String) (c : Validator)
    (h : lookupType tm (normalizeTypeName t) = some c) :
    jsIs tm v t = (match c v with
      | .ok _ => Except.ok true
      | .error _ => Except.ok false) := by
  rcases hc : c v with w | m <;> simp [jsIs, jsIsList, h, hc]

/-- A single-segment leaf type-expression whose one registered checker
rejects the value produces exactly the aggregated mismatch error at the
field's path. -/
theorem vsv_leaf_reject (tm : TypesMap) (T : String) (v : JSValue)
    (path : String) (strict : Bool)
    (hT1 : jsTrim T = T) (hT2 : T ≠ "") (hT3 : '|' ∉ T.data)
    (hrej : jsIs tm v T = Except.ok false) :
    validateSchemaValue tm (.str T) v path strict =
      Except.ok ["Expected \"" ++ path ++ "\" to be " ++ T ++ ", got " ++ getType v] := by
  rw [validateSchemaValue]
  rw [hT1, if_neg hT2, jsSplit_sepFree '|' T hT3]
  simp only [List.map_cons, List.map_nil, hT1]
  rw [List.filter_cons_of_pos (by simp [hT2])]
  simp only [List.filter_nil]
  rw [if_neg (by simp)]
  rw [List.filter_cons_of_neg (by simp [hrej])]
  simp only [List.length_cons, List.length_nil, List.headD_cons, if_pos rfl]
  rfl

/-- C10: the built-in `object` validator accepts `null` (its `typeof` is
"object" and it is not an array), so `is(null, "object")` is true and a
required field declared `"object"` validates when its value is exactly
`null`, at any key, path and strict-mode setting. -/
theorem object_leaf_accepts_null (k path : String) (strict : Bool) :
    tObject JSValue.null = Except.ok JSValue.null ∧
    jsIs builtinTypesMap JSValue.null "object" = Except.ok true ∧
    checkStructure builtinTypesMap (.obj [(k, .str "object")])
      (.obj [(k, .null)]) path strict = Except.ok ⟨true, []⟩ := by
  refine ⟨rfl, by decide, ?_⟩
  simp [checkStructure, checkFields, validateSchemaValue, checkItems,
    jsGet, jsGet.jsGetFields, jsKeys, jsHasOwn, jsIsUndefined, jsIsNull,
    jsIsString, jsStrContent, stripOptional, endsWithQuestion, sliceDropLast,
    typeOf, jsTruthy, jsIsArray, jsArrayItems, getType, jsTrim, jsTrimChars,
    isJsWhitespace, jsSplit, splitChars, jsIs, jsIsList, normalizeTypeName,
    jsToLower, lookupType, builtinTypesMap, tObject, jsDisplay,
    pure, Except.pure, bind, Except.bind, List.isEmpty]

/-- C5: the built-in seeded `dataview` validator (under its aliases `dv`,
`dt_v` and `data_view`) accepts a value exactly when it is a DataView
instance, and `is(v, alias)` over the built-in registry mirrors that. -/
theorem builtin_dataview_iff (v : JSValue) :
    ((∃ w, tDataView v = Except.ok w) ↔ v = .dataView) ∧
    (jsIs builtinTypesMap v "dv" = Except.ok true ↔ v = .dataView) ∧
    (jsIs builtinTypesMap v "dt_v" = Except.ok true ↔ v = .dataView) ∧
    (jsIs builtinTypesMap v "data_view" = Except.ok true ↔ v = .dataView) := by
  have h1 : lookupType builtinTypesMap (normalizeTypeName "dv") = some tDataView := rfl
  have h2 : lookupType builtinTypesMap (normalizeTypeName "dt_v") = some tDataView := rfl
  have h3 : lookupType builtinTypesMap (normalizeTypeName "data_view") = some tDataView := rfl
  rw [jsIs_single builtinTypesMap v "dv" tDataView h1,
    jsIs_single builtinTypesMap v "dt_v" tDataView h2,
    jsIs_single builtinTypesMap v "data_view" tDataView h3]
  cases v <;> simp [tDataView]

/-- C2: `checkStructure` never lets an exception escape: for every
registry (validators may throw arbitrarily), schema, value, path and mode
it returns a structured result with `isValid` equal to the emptiness of
the error list; and when the single registered checker of a leaf type
throws on the field's value, the throw is caught and converted into an
error string tagged with the field's path in the returned list. -/
theorem checkStructure_never_raises :
    (∀ (tm : TypesMap) (schema obj : JSValue) (path : String) (strict : Bool),
      ∃ r, checkStructure tm schema obj path strict = Except.ok r ∧
        r.isValid = r.errors.isEmpty) ∧
    (∀ (tm : TypesMap) (k T : String) (v : JSValue) (c : Validator) (m : String),
      jsTrim T = T → T ≠ "" → '|' ∉ T.data → endsWithQuestion T = false →
      lookupType tm (normalizeTypeName T) = some c → c v = Except.error m →
      jsIsUndefined v = false →
      checkStructure tm (.obj [(k, .str T)]) (.obj [(k, v)]) "" false =
        Except.ok ⟨false,
          ["Expected \"" ++ k ++ "\" to be " ++ T ++ ", got " ++ getType v]⟩) := by
  refine ⟨checkStructure_isOk, ?_⟩
  intro tm k T v c m hT1 hT2 hT3 hq hc hcv hv
  have hrej : jsIs tm v T = Except.ok false := by
    rw [jsIs_single tm v T c hc, hcv]
  have hvsv := vsv_leaf_reject tm T v k false hT1 hT2 hT3 hrej
  rw [checkStructure]
  rw [if_neg (by simp [jsTruthy, typeOf, jsIsArray]),
    if_neg (by simp [jsTruthy, typeOf, jsIsArray])]
  dsimp only
  rw [checkFields, checkFields]
  simp [jsGet, jsGet.jsGetFields, jsIsString, jsStrContent, hq, hv, hvsv,
    jsKeys, jsHasOwn, List.isEmpty, pure, Except.pure, bind, Except.bind]

theorem checkStructure_never_raises_witness :
    (∃ r, checkStructure [("boom", boomValidator)] (.obj [("k", .str "boom")])
        (.obj [("k", .num 1)]) "" false = Except.ok r ∧
        r.isValid = r.errors.isEmpty) ∧
    checkStructure [("boom", boomValidator)] (.obj [("k", .str "boom")])
        (.obj [("k", .num 1)]) "" false =
      Except.ok ⟨false, ["Expected \"k\" to be boom, got number"]⟩ :=
  ⟨checkStructure_never_raises.1 [("boom", boomValidator)]
      (.obj [("k", .str "boom")]) (.obj [("k", .num 1)]) "" false,
   checkStructure_never_raises.2 [("boom", boomValidator)] "k" "boom"
      (.num 1) boomValidator "boom" (by decide) (by decide) (by decide)
      (by decide) rfl rfl (by decide)⟩

theorem tryCheckers_ok_eq (p : JSValue) :
    ∀ (cs : List Validator) (errs : List String) (r : JSValue),
    tryCheckers p cs errs = Except.ok r → r = p := by
  intro cs
  induction cs with
  | nil => intro errs r h; simp [tryCheckers] at h
  | cons c rest ih =>
    intro errs r h
    rw [tryCheckers] at h
    rcases hc : c p with m | w <;> rw [hc] at h
    · exact ih (errs ++ [m]) r h
    · have h2 : (Except.ok p : Except String JSValue) = Except.ok r := h
      injection h2 with h3
      exact h3.symm

theorem tryCheckers_first_accept (p : JSValue) :
    ∀ (pre : List Validator) (c : Validator) (post : List Validator)
      (errs : List String) (r : JSValue),
    (∀ c2 ∈ pre, ∃ m, c2 p = Except.error m) → c p = Except.ok r →
    tryCheckers p (pre ++ c :: post) errs = Except.ok p := by
  intro pre
  induction pre with
  | nil =>
    intro c post errs r _ hc
    rw [List.nil_append, tryCheckers, hc]
  | cons c2 rest ih =>
    intro c post errs r hpre hc
    obtain ⟨m, hm⟩ := hpre c2 (List.mem_cons_self c2 rest)
    rw [List.cons_append, tryCheckers, hm]
    exact ih c post (errs ++ [m]) r
      (fun c3 h3 => hpre c3 (List.mem_cons_of_mem c2 h3)) hc

/-- C1 as amended: `isType` returns the original argument `p` on success —
whenever the resolved checkers split as `pre ++ c :: post` with every
checker of `pre` throwing on `p` and `c` accepting `p` (returning any
value `r`), the call returns `p` itself; and any successful `isType` call
returns exactly its input. -/
theorem isType_returns_original_input :
    (∀ (tm : TypesMap) (types : List String) (p : JSValue)
       (checkers pre post : List Validator) (c : Validator) (r : JSValue),
      resolveCheckers tm types = Except.ok checkers →
      checkers = pre ++ c :: post →
      (∀ c2 ∈ pre, ∃ m, c2 p = Except.error m) →
      c p = Except.ok r →
      isTypeArr tm types p = Except.ok p) ∧
    (∀ (tm : TypesMap) (types : List String) (p r : JSValue),
      isTypeArr tm types p = Except.ok r → r = p) := by
  constructor
  · intro tm types p checkers pre post c r hres hsplit hpre hc
    rw [isTypeArr, hres]
    show tryCheckers p checkers [] = Except.ok p
    rw [hsplit]
    exact tryCheckers_first_accept p pre c post [] r hpre hc
  · intro tm types p r h
    rw [isTypeArr] at h
    rcases hres : resolveCheckers tm types with m | cs <;> rw [hres] at h
    · exact Except.noConfusion
        (show (Except.error m : Except String JSValue) = Except.ok r from h)
    · exact tryCheckers_ok_eq p cs [] r h

theorem isType_returns_original_input_witness :
    isTypeArr [("wrap", wrapValidator)] ["wrap"] (.str "input") =
      Except.ok (.str "input") :=
  isType_returns_original_input.1 [("wrap", wrapValidator)] ["wrap"]
    (.str "input") [wrapValidator] [] [] wrapValidator (.str "TRANSFORMED")
    rfl rfl (fun c2 h2 => absurd h2 (List.not_mem_nil c2)) rfl

/-- C1 counterexample: the first (and only) checker accepts the input and
returns the transformed value `"TRANSFORMED"`, yet `isType` returns the
original input, not the checker's return value. -/
theorem isType_discards_transformed_value_cex :
    wrapValidator (.str "input") = Except.ok (.str "TRANSFORMED") ∧
    isTypeArr [("wrap", wrapValidator)] ["wrap"] (.str "input") =
      Except.ok (.str "input") ∧
    (JSValue.str "input" = JSValue.str "TRANSFORMED" → False) := by
  refine ⟨rfl, rfl, ?_⟩
  intro h
  simp at h

theorem tryCheckers_all_reject (p : JSValue) :
    ∀ (cs : List Validator) (msgs errs : List String),
    cs.map (fun c => c p) = msgs.map Except.error →
    tryCheckers p cs errs = Except.error ("None of the types matched for " ++
      jsDisplay p ++ ": " ++ String.intercalate ", " (errs ++ msgs)) := by
  intro cs
  induction cs with
  | nil =>
    intro msgs errs h
    have hm : msgs = [] := by
      cases msgs with
      | nil => rfl
      | cons m ms => simp at h
    subst hm
    rw [tryCheckers, List.append_nil]
  | cons c rest ih =>
    intro msgs errs h
    cases msgs with
    | nil => simp at h
    | cons m ms =>
      simp only [List.map_cons, List.cons.injEq] at h
      rw [tryCheckers, h.1]
      show tryCheckers p rest (errs ++ [m]) = _
      rw [ih ms (errs ++ [m]) h.2, List.append_assoc, List.singleton_append]

/-- C8: when every candidate type name resolves to a checker and every
checker throws on `p`, `isType` throws exactly one error whose message is
the fixed prefix followed by each checker's rejection reason, joined in
candidate order. -/
theorem isType_aggregates_rejections :
    ∀ (tm : TypesMap) (types : List String) (p : JSValue)
      (checkers : List Validator) (msgs : List String),
    resolveCheckers tm types = Except.ok checkers →
    checkers.map (fun c => c p) = msgs.map Except.error →
    isTypeArr tm types p = Except.error ("None of the types matched for " ++
      jsDisplay p ++ ": " ++ String.intercalate ", " msgs) := by
  intro tm types p checkers msgs hres h
  rw [isTypeArr, hres]
  show tryCheckers p checkers [] = _
  rw [tryCheckers_all_reject p checkers msgs [] h, List.nil_append]

theorem isType_aggregates_rejections_witness :
    isTypeArr builtinTypesMap ["number", "boolean"] (.str "x") =
      Except.error
        "None of the types matched for x: x must be a number, is string, x must be a boolean, is string" := by
  have h := isType_aggregates_rejections builtinTypesMap ["number", "boolean"]
    (.str "x") [tNumber, tBoolean]
    ["x must be a number, is string", "x must be a boolean, is string"]
    rfl (by simp [tNumber, tBoolean, typeOf, jsDisplay])
  rw [h]
  exact congrArg Except.error (by decide)

theorem outcomeEquiv_of_eq {α : Type} (x y : Except String α) (h : x = y) :
    outcomeEquiv x y := by
  subst h
  cases x with
  | ok a => exact Or.inl ⟨a, rfl, rfl⟩
  | error m => exact Or.inr ⟨m, m, rfl, rfl⟩

theorem resolveCheckers_norm (tm : TypesMap) :
    ∀ (ns ns2 : List String),
    ns.map normalizeTypeName = ns2.map normalizeTypeName →
    (∃ cs, resolveCheckers tm ns = Except.ok cs ∧
           resolveCheckers tm ns2 = Except.ok cs) ∨
    (∃ m m2, resolveCheckers tm ns = Except.error m ∧
             resolveCheckers tm ns2 = Except.error m2) := by
  intro ns
  induction ns with
  | nil =>
    intro ns2 h
    have h2 : ns2 = [] := by
      cases ns2 with
      | nil => rfl
      | cons a b => simp at h
    subst h2
    exact Or.inl ⟨[], rfl, rfl⟩
  | cons t rest ih =>
    intro ns2 h
    cases ns2 with
    | nil => simp at h
    | cons t2 rest2 =>
      simp only [List.map_cons, List.cons.injEq] at h
      rw [resolveCheckers, resolveCheckers]
      simp only [List.mapM_cons, h.1]
      rcases hl : lookupType tm (normalizeTypeName t2) with _ | c
      · exact Or.inr ⟨_, _, rfl, rfl⟩
      · rcases ih rest2 h.2 with ⟨cs, h1, h2⟩ | ⟨m, m2, h1, h2⟩
        · rw [resolveCheckers] at h1 h2
          rw [h1, h2]
          exact Or.inl ⟨c :: cs, rfl, rfl⟩
        · rw [resolveCheckers] at h1 h2
          rw [h1, h2]
          exact Or.inr ⟨_, _, rfl, rfl⟩

/-- C4 as amended: `registerType`, `unregisterType` and the matchers
`is`/`isType` look names up only through the lower-cased trimmed form, so
two spellings with the same normalization produce the same outcome (same
returned value and registry state; a thrown message may spell the name as
supplied).  `importTypes` is excluded: it looks names up verbatim. -/
theorem lookup_ops_normalize_names :
    ∀ (tm : TypesMap) (f : Validator) (ov : Bool) (v p : JSValue)
      (n n2 : String) (ns ns2 : List String),
    normalizeTypeName n = normalizeTypeName n2 →
    ns.map normalizeTypeName = ns2.map normalizeTypeName →
    outcomeEquiv (registerType tm n f ov) (registerType tm n2 f ov) ∧
    outcomeEquiv (unregisterType tm n) (unregisterType tm n2) ∧
    outcomeEquiv (jsIsList tm v ns) (jsIsList tm v ns2) ∧
    outcomeEquiv (isTypeArr tm ns p) (isTypeArr tm ns2 p) := by
  intro tm f ov v p n n2 ns ns2 hn hns
  refine ⟨?_, ?_, ?_, ?_⟩
  · unfold registerType
    rw [hn]
    by_cases hc : ((lookupType tm (normalizeTypeName n2)).isSome && !ov) = true
    · simp only [hc, if_true]
      exact Or.inr ⟨_, _, rfl, rfl⟩
    · simp only [Bool.not_eq_true] at hc
      simp only [hc, Bool.false_eq_true, if_false]
      exact Or.inl ⟨_, rfl, rfl⟩
  · unfold unregisterType
    rw [hn]
    by_cases hc : (lookupType tm (normalizeTypeName n2)).isNone = true
    · simp only [hc, if_true]
      exact Or.inr ⟨_, _, rfl, rfl⟩
    · simp only [Bool.not_eq_true] at hc
      simp only [hc, Bool.false_eq_true, if_false]
      exact Or.inl ⟨_, rfl, rfl⟩
  · clear hn
    induction ns generalizing ns2 with
    | nil =>
      have h2 : ns2 = [] := by
        cases ns2 with
        | nil => rfl
        | cons a b => simp at hns
      subst h2
      exact Or.inl ⟨false, rfl, rfl⟩
    | cons t rest ih =>
      cases ns2 with
      | nil => simp at hns
      | cons t2 rest2 =>
        simp only [List.map_cons, List.cons.injEq] at hns
        rw [jsIsList, jsIsList, hns.1]
        rcases hl : lookupType tm (normalizeTypeName t2) with _ | c
        · exact Or.inr ⟨_, _, rfl, rfl⟩
        · dsimp only
          rcases hc : c v with m | w
          · exact ih rest2 hns.2
          · exact Or.inl ⟨true, rfl, rfl⟩
  · rcases resolveCheckers_norm tm ns ns2 hns with ⟨cs, h1, h2⟩ | ⟨m, m2, h1, h2⟩
    · rw [isTypeArr, isTypeArr, h1, h2]
      exact outcomeEquiv_of_eq _ _ rfl
    · rw [isTypeArr, isTypeArr, h1, h2]
      exact Or.inr ⟨_, _, rfl, rfl⟩

theorem lookup_ops_normalize_names_witness :
    outcomeEquiv (registerType builtinTypesMap " X " idValidator false)
      (registerType builtinTypesMap "x" idValidator false) ∧
    outcomeEquiv (unregisterType builtinTypesMap " X ")
      (unregisterType builtinTypesMap "x") ∧
    outcomeEquiv (jsIsList builtinTypesMap (.str "s") [" STRING "])
      (jsIsList builtinTypesMap (.str "s") ["string"]) ∧
    outcomeEquiv (isTypeArr builtinTypesMap [" STRING "] (.str "s"))
      (isTypeArr builtinTypesMap ["string"] (.str "s")) :=
  lookup_ops_normalize_names builtinTypesMap idValidator false
    (.str "s") (.str "s") " X " "x" [" STRING "] ["string"]
    (by decide) (by decide)

/-- C4 counterexample: `importTypes` does not normalize — importing the
name `" STRING "` warns it is unknown although `string` (its normalized
form) is registered, while importing `"string"` warns nothing. -/
theorem importTypes_no_normalization_cex :
    importTypesParsed builtinTypesMap (.arr [.str " STRING "]) =
      Except.ok ["[Typer] Unknown type in import:  STRING "] ∧
    importTypesParsed builtinTypesMap (.arr [.str "string"]) = Except.ok [] ∧
    (lookupType builtinTypesMap (normalizeTypeName " STRING ")).isSome = true := by
  refine ⟨rfl, rfl, by decide⟩

theorem endsWithQuestion_append (T : String) :
    endsWithQuestion (T ++ "?") = true := by
  unfold endsWithQuestion
  rw [String.data_append, show ("?" : String).data = ['?'] from by decide,
    List.getLast?_concat]
  rfl

theorem sliceDropLast_append (T : String) : sliceDropLast (T ++ "?") = T := by
  unfold sliceDropLast
  rw [String.data_append, show ("?" : String).data = ['?'] from by decide,
    List.dropLast_concat, stringMk_data]

/-- C3: the optional-field law.  For every registry and key, the schema
`{k: T ++ "?"}` accepts the empty object (key absent) and `{k: null}`;
and when the value is present, non-null and rejected by `T`'s registered
checker (`is(v, T)` is false), validation fails with exactly the leaf
mismatch error for the field. -/
theorem checkStructure_optional_field_law :
    ∀ (tm : TypesMap) (k T : String) (v : JSValue),
    jsTrim T = T → T ≠ "" → '|' ∉ T.data →
    (checkStructure tm (.obj [(k, .str (T ++ "?"))]) (.obj []) "" false =
      Except.ok ⟨true, []⟩) ∧
    (checkStructure tm (.obj [(k, .str (T ++ "?"))]) (.obj [(k, .null)]) "" false =
      Except.ok ⟨true, []⟩) ∧
    (jsIsUndefined v = false → jsIsNull v = false →
      jsIs tm v T = Except.ok false →
      checkStructure tm (.obj [(k, .str (T ++ "?"))]) (.obj [(k, v)]) "" false =
        Except.ok ⟨false,
          ["Expected \"" ++ k ++ "\" to be " ++ T ++ ", got " ++ getType v]⟩) := by
  intro tm k T v hT1 hT2 hT3
  have hguard1 : ∀ fs, (!jsTruthy (JSValue.obj fs) ||
      typeOf (JSValue.obj fs) != "object" || jsIsArray (JSValue.obj fs)) = false := by
    intro fs; simp [jsTruthy, typeOf, jsIsArray]
  refine ⟨?_, ?_, ?_⟩
  · rw [checkStructure, if_neg (by simp [hguard1]), if_neg (by simp [hguard1])]
    dsimp only
    rw [checkFields, checkFields]
    simp [jsGet, jsGet.jsGetFields, jsIsUndefined, jsIsString, jsStrContent,
      endsWithQuestion_append, jsKeys, jsHasOwn, List.isEmpty, pure, Except.pure,
      bind, Except.bind]
  · rw [checkStructure, if_neg (by simp [hguard1]), if_neg (by simp [hguard1])]
    dsimp only
    rw [checkFields, checkFields]
    simp [jsGet, jsGet.jsGetFields, jsIsUndefined, jsIsNull, jsIsString,
      jsStrContent, endsWithQuestion_append, jsKeys, jsHasOwn, List.isEmpty,
      pure, Except.pure, bind, Except.bind]
  · intro hv1 hv2 hrej
    have hvsv := vsv_leaf_reject tm T v k false hT1 hT2 hT3 hrej
    rw [checkStructure, if_neg (by simp [hguard1]), if_neg (by simp [hguard1])]
    dsimp only
    rw [checkFields, checkFields]
    simp [jsGet, jsGet.jsGetFields, hv1, hv2, jsIsString, jsStrContent,
      endsWithQuestion_append, stripOptional, sliceDropLast_append, hvsv,
      jsKeys, jsHasOwn, List.isEmpty, pure, Except.pure, bind, Except.bind]

theorem checkStructure_optional_field_law_witness :
    (checkStructure builtinTypesMap (.obj [("name", .str ("string" ++ "?"))])
      (.obj []) "" false = Except.ok ⟨true, []⟩) ∧
    (checkStructure builtinTypesMap (.obj [("name", .str ("string" ++ "?"))])
      (.obj [("name", .null)]) "" false = Except.ok ⟨true, []⟩) ∧
    checkStructure builtinTypesMap (.obj [("name", .str ("string" ++ "?"))])
      (.obj [("name", .num 1)]) "" false =
      Except.ok ⟨false, ["Expected \"name\" to be string, got number"]⟩ := by
  have h := checkStructure_optional_field_law builtinTypesMap "name" "string"
    (.num 1) (by decide) (by decide) (by decide)
  exact ⟨h.1, h.2.1, h.2.2 (by decide) (by decide) (by decide)⟩

/-- C7: strict mode.  At each level, the errors of a strict run are the
per-field errors followed by exactly one "unexpected key" error, at its
full path, for each key of the value absent from the schema; a non-strict
run returns the per-field errors alone.  In particular `{name:"string"}`
against `{name:"a", extra:1}` is valid by default and invalid in strict
mode with an error naming `extra`. -/
theorem strict_mode_extra_keys :
    (∀ (tm : TypesMap) (sf vf : List (String × JSValue)) (path : String)
       (es : List String),
      checkFields tm sf (.obj vf) path true = Except.ok es →
      checkStructure tm (.obj sf) (.obj vf) path true =
        Except.ok ⟨(es ++ extraKeyErrors sf vf path).isEmpty,
          es ++ extraKeyErrors sf vf path⟩) ∧
    (∀ (tm : TypesMap) (sf vf : List (String × JSValue)) (path : String)
       (es : List String),
      checkFields tm sf (.obj vf) path false = Except.ok es →
      checkStructure tm (.obj sf) (.obj vf) path false =
        Except.ok ⟨es.isEmpty, es⟩) ∧
    (checkStructure builtinTypesMap (.obj [("name", .str "string")])
      (.obj [("name", .str "a"), ("extra", .num 1)]) "" false =
      Except.ok ⟨true, []⟩) ∧
    (checkStructure builtinTypesMap (.obj [("name", .str "string")])
      (.obj [("name", .str "a"), ("extra", .num 1)]) "" true =
      Except.ok ⟨false, ["Unexpected key \"extra\" in strict mode"]⟩) := by
  refine ⟨?_, ?_, ?_, ?_⟩
  · intro tm sf vf path es hes
    rw [checkStructure, if_neg (by simp [jsTruthy, typeOf, jsIsArray]),
      if_neg (by simp [jsTruthy, typeOf, jsIsArray])]
    dsimp only
    rw [hes]
    simp [extraKeyErrors, jsKeys, jsHasOwn, bind, Except.bind, pure, Except.pure]
  · intro tm sf vf path es hes
    rw [checkStructure, if_neg (by simp [jsTruthy, typeOf, jsIsArray]),
      if_neg (by simp [jsTruthy, typeOf, jsIsArray])]
    dsimp only
    rw [hes]
    simp [bind, Except.bind, pure, Except.pure]
  · simp [checkStructure, checkFields, validateSchemaValue, checkItems,
      jsGet, jsGet.jsGetFields, jsKeys, jsHasOwn, jsIsUndefined, jsIsNull,
      jsIsString, jsStrContent, stripOptional, endsWithQuestion, sliceDropLast,
      typeOf, jsTruthy, jsIsArray, jsArrayItems, getType, jsTrim, jsTrimChars,
      isJsWhitespace, jsSplit, splitChars, jsIs, jsIsList, normalizeTypeName,
      jsToLower, lookupType, builtinTypesMap, tString, jsDisplay,
      pure, Except.pure, bind, Except.bind, List.isEmpty]
  · simp [checkStructure, checkFields, validateSchemaValue, checkItems,
      jsGet, jsGet.jsGetFields, jsKeys, jsHasOwn, jsIsUndefined, jsIsNull,
      jsIsString, jsStrContent, stripOptional, endsWithQuestion, sliceDropLast,
      typeOf, jsTruthy, jsIsArray, jsArrayItems, getType, jsTrim, jsTrimChars,
      isJsWhitespace, jsSplit, splitChars, jsIs, jsIsList, normalizeTypeName,
      jsToLower, lookupType, builtinTypesMap, tString, jsDisplay,
      pure, Except.pure, bind, Except.bind, List.isEmpty]

theorem strict_mode_extra_keys_witness :
    checkStructure builtinTypesMap (.obj [("name", .str "string")])
      (.obj [("name", .str "a"), ("extra", .num 1)]) "" true =
      Except.ok ⟨(([] : List String) ++
          extraKeyErrors [("name", .str "string")]
            [("name", .str "a"), ("extra", .num 1)] "").isEmpty,
        ([] : List String) ++
          extraKeyErrors [("name", .str "string")]
            [("name", .str "a"), ("extra", .num 1)] ""⟩ :=
  strict_mode_extra_keys.1 builtinTypesMap [("name", .str "string")]
    [("name", .str "a"), ("extra", .num 1)] "" []
    (by simp [checkFields, validateSchemaValue, jsGet, jsGet.jsGetFields,
      jsIsUndefined, jsIsNull, jsIsString, jsStrContent, stripOptional,
      endsWithQuestion, typeOf, jsTrim, jsTrimChars, isJsWhitespace, jsSplit,
      splitChars, jsIs, jsIsList, normalizeTypeName, jsToLower, lookupType,
      builtinTypesMap, tString, jsDisplay, pure, Except.pure, bind, Except.bind])

/-- C6 counterexample: for the array schema node `[42]` (non-string
element type) against the non-array value `5`, the engine emits the
"expected array" error, not the "element type must be a string" error the
claim's ordering dictates — the value's array check runs before the
element-type check. -/
theorem array_schema_check_order_cex :
    checkStructure builtinTypesMap (.obj [("k", .arr [.num 42])])
      (.obj [("k", .num 5)]) "" false =
      Except.ok ⟨false, ["Expected \"k\" to be an array, got number"]⟩ ∧
    ("Array element type must be a string at \"k\"" ∈
      ["Expected \"k\" to be an array, got number"] → False) := by
  refine ⟨?_, by decide⟩
  simp [checkStructure, checkFields, validateSchemaValue, checkItems,
    jsGet, jsGet.jsGetFields, jsKeys, jsHasOwn, jsIsUndefined, jsIsNull,
    jsIsString, jsStrContent, stripOptional, endsWithQuestion, sliceDropLast,
    typeOf, jsTruthy, jsIsArray, jsArrayItems, getType, jsTrim, jsTrimChars,
    isJsWhitespace, jsSplit, splitChars, jsIs, jsIsList, normalizeTypeName,
    jsToLower, lookupType, builtinTypesMap, jsDisplay,
    pure, Except.pure, bind, Except.bind, List.isEmpty]

/-- C6 as amended: array-of leaf validation with the code's check order —
empty schema, then more than one element, then non-array value, then
non-string element type; otherwise each member is checked against the
element type-expression at `fullPath[index]`, and the sample schema
`{items:["string"]}` against `{items:["ok",1,"ok"]}` yields exactly one
error referencing `items[1]`. -/
theorem array_schema_validation_cases :
    (∀ (tm : TypesMap) (v : JSValue) (path : String) (strict : Bool),
      validateSchemaValue tm (.arr []) v path strict =
        Except.ok ["Empty array schema definition at \"" ++ path ++ "\""]) ∧
    (∀ (tm : TypesMap) (d d2 : JSValue) (rest : List JSValue) (v : JSValue)
       (path : String) (strict : Bool),
      validateSchemaValue tm (.arr (d :: d2 :: rest)) v path strict =
        Except.ok ["Array schema must have exactly one element type definition at \"" ++
          path ++ "\""]) ∧
    (∀ (tm : TypesMap) (d v : JSValue) (path : String) (strict : Bool),
      jsIsArray v = false →
      validateSchemaValue tm (.arr [d]) v path strict =
        Except.ok ["Expected \"" ++ path ++ "\" to be an array, got " ++ getType v]) ∧
    (∀ (tm : TypesMap) (d : JSValue) (items : List JSValue) (path : String)
       (strict : Bool),
      jsIsString d = false →
      validateSchemaValue tm (.arr [d]) (.arr items) path strict =
        Except.ok ["Array element type must be a string at \"" ++ path ++ "\""]) ∧
    (checkStructure builtinTypesMap (.obj [("items", .arr [.str "string"])])
      (.obj [("items", .arr [.str "ok", .num 1, .str "ok"])]) "" false =
      Except.ok ⟨false, ["Expected \"items[1]\" to be string, got number"]⟩) := by
  refine ⟨?_, ?_, ?_, ?_, ?_⟩
  · intro tm v path strict
    rw [validateSchemaValue]
    rfl
  · intro tm d d2 rest v path strict
    rw [validateSchemaValue]
    rfl
  · intro tm d v path strict hv
    cases d <;> simp [validateSchemaValue, hv, pure, Except.pure]
  · intro tm d items path strict hd
    cases d <;> simp_all [validateSchemaValue, jsIsString, jsIsArray,
      pure, Except.pure]
  · simp [checkStructure, checkFields, validateSchemaValue, checkItems,
      jsGet, jsGet.jsGetFields, jsKeys, jsHasOwn, jsIsUndefined, jsIsNull,
      jsIsString, jsStrContent, stripOptional, endsWithQuestion, sliceDropLast,
      typeOf, jsTruthy, jsIsArray, jsArrayItems, getType, jsTrim, jsTrimChars,
      isJsWhitespace, jsSplit, splitChars, jsIs, jsIsList, normalizeTypeName,
      jsToLower, lookupType, builtinTypesMap, tString, jsDisplay,
      pure, Except.pure, bind, Except.bind, List.isEmpty]
    try decide

theorem array_schema_validation_cases_witness :
    validateSchemaValue builtinTypesMap (.arr [.num 7]) (.str "nope") "p" false =
      Except.ok ["Expected \"p\" to be an array, got string"] ∧
    validateSchemaValue builtinTypesMap (.arr [.num 7]) (.arr [.num 1]) "p" false =
      Except.ok ["Array element type must be a string at \"p\""] :=
  ⟨array_schema_validation_cases.2.2.1 builtinTypesMap (.num 7) (.str "nope")
      "p" false (by decide),
   array_schema_validation_cases.2.2.2.1 builtinTypesMap (.num 7) [.num 1]
      "p" false (by decide)⟩

theorem vsv_str_accepts_iff (tm : TypesMap) (e : String) (v : JSValue)
    (path : String) (strict : Bool) (hne : jsTrim e ≠ "") :
    (validateSchemaValue tm (.str e) v path strict = Except.ok []) ↔
    (∃ t ∈ ((jsSplit '|' e).map jsTrim).filter (fun t => t ≠ ""),
      (match jsIs tm v t with
       | .ok b => b
       | .error _ => false) = true) := by
  rw [validateSchemaValue, if_neg hne]
  dsimp only
  by_cases h1 : ((jsSplit '|' e).map jsTrim).filter (fun t => t ≠ "") = []
  · rw [if_pos h1, h1]
    simp [pure, Except.pure]
  · rw [if_neg h1]
    by_cases h2 : (((jsSplit '|' e).map jsTrim).filter (fun t => t ≠ "")).filter
        (fun type => match jsIs tm v type with
          | .ok b => b
          | .error _ => false) = []
    · rw [if_pos h2]
      refine iff_of_false (by simp [pure, Except.pure]) ?_
      rintro ⟨t, ht, hp⟩
      have : t ∈ (((jsSplit '|' e).map jsTrim).filter (fun t => t ≠ "")).filter
          (fun type => match jsIs tm v type with
            | .ok b => b
            | .error _ => false) := List.mem_filter.mpr ⟨ht, hp⟩
      rw [h2] at this
      cases this
    · rw [if_neg h2]
      refine iff_of_true rfl ?_
      obtain ⟨t, ht⟩ := List.exists_mem_of_ne_nil _ h2
      have := List.mem_filter.mp ht
      exact ⟨t, this.1, this.2⟩

/-- C9: union order-independence — a two-segment leaf type-expression
accepts a value exactly when the segment-swapped expression does, for any
registry, value, path and mode. -/
theorem union_order_independent (tm : TypesMap) (T1 T2 : String)
    (v : JSValue) (path : String) (strict : Bool)
    (h1 : '|' ∉ T1.data) (h2 : '|' ∉ T2.data) :
    (validateSchemaValue tm (.str (T1 ++ "|" ++ T2)) v path strict =
      Except.ok []) ↔
    (validateSchemaValue tm (.str (T2 ++ "|" ++ T1)) v path strict =
      Except.ok []) := by
  have hd12 : (T1 ++ "|" ++ T2).data = T1.data ++ '|' :: T2.data := by
    rw [String.data_append, String.data_append,
      show ("|" : String).data = ['|'] from by decide]
    simp
  have hd21 : (T2 ++ "|" ++ T1).data = T2.data ++ '|' :: T1.data := by
    rw [String.data_append, String.data_append,
      show ("|" : String).data = ['|'] from by decide]
    simp
  have hne12 : jsTrim (T1 ++ "|" ++ T2) ≠ "" :=
    jsTrim_ne_empty_of_mem _ '|' (by rw [hd12]; simp) (by decide)
  have hne21 : jsTrim (T2 ++ "|" ++ T1) ≠ "" :=
    jsTrim_ne_empty_of_mem _ '|' (by rw [hd21]; simp) (by decide)
  rw [vsv_str_accepts_iff tm _ v path strict hne12,
    vsv_str_accepts_iff tm _ v path strict hne21,
    jsSplit_two T1 T2 h1 h2, jsSplit_two T2 T1 h2 h1]
  simp only [List.map_cons, List.map_nil]
  constructor
  · rintro ⟨t, ht, hp⟩
    refine ⟨t, ?_, hp⟩
    have := List.mem_filter.mp ht
    rcases this with ⟨hmem, hpred⟩
    apply List.mem_filter.mpr
    refine ⟨?_, hpred⟩
    simp only [List.mem_cons, List.not_mem_nil, or_false] at hmem ⊢
    tauto
  · rintro ⟨t, ht, hp⟩
    refine ⟨t, ?_, hp⟩
    have := List.mem_filter.mp ht
    rcases this with ⟨hmem, hpred⟩
    apply List.mem_filter.mpr
    refine ⟨?_, hpred⟩
    simp only [List.mem_cons, List.not_mem_nil, or_false] at hmem ⊢
    tauto

theorem union_order_independent_witness :
    (validateSchemaValue builtinTypesMap (.str ("string" ++ "|" ++ "number"))
      (.num 3) "p" false = Except.ok []) ↔
    (validateSchemaValue builtinTypesMap (.str ("number" ++ "|" ++ "string"))
      (.num 3) "p" false = Except.ok []) :=
  union_order_independent builtinTypesMap "string" "number" (.num 3) "p" false
    (by decide) (by decide)
